import Mathlib

/-!
Verification of the pich8 host glue (emulator.rs, dialog_handler.rs) and of
the spec-described CHIP-8 core (cpu.rs is not part of the provided excerpt,
so the Machine state and the Snapshot Codec are modelled from the spec).

Machine integers are modelled as `Nat` with explicit range invariants
(registers < 256, addresses < 65536), memory and the display buffer as
lists, fallible operations as `Except String`.
-/

namespace Pich8

/-! ## Machine state (data model of spec section 3)

Modelled from the spec: cpu.rs is not in the provided sources; the Machine
entity is taken from the spec's data-model table — memory bytes, 16 data
registers (8-bit), index register (16-bit), program counter (16-bit),
bounded stack, delay timer, sound timer, 1-bit-per-pixel display buffer.
The CHIP-8 architecture constants are memory size 4096, entry offset 0x200,
stack limit 16, display 64×32. -/

def MEM_SIZE : Nat := 4096
def ENTRY_OFFSET : Nat := 0x200
def STACK_LIMIT : Nat := 16
def VMEM_SIZE : Nat := 64 * 32

structure Machine where
  memory : List Nat
  v : List Nat
  i : Nat
  pc : Nat
  stack : List Nat
  delayTimer : Nat
  soundTimer : Nat
  vmem : List Bool
  deriving DecidableEq, Repr

/-- Invariants of a reachable Machine state, from the spec's data-model
table: sizes are fixed and every field is masked to its bit width. -/
def WellFormed (m : Machine) : Prop :=
  m.memory.length = MEM_SIZE ∧ (∀ b ∈ m.memory, b < 256) ∧
  m.v.length = 16 ∧ (∀ b ∈ m.v, b < 256) ∧
  m.i < 65536 ∧ m.pc < 65536 ∧
  m.stack.length ≤ STACK_LIMIT ∧ (∀ a ∈ m.stack, a < 65536) ∧
  m.delayTimer < 256 ∧ m.soundTimer < 256 ∧
  m.vmem.length = VMEM_SIZE

instance : DecidablePred WellFormed := fun m => by
  unfold WellFormed; infer_instance

/-- The zeroed machine with the program counter at the entry point
(spec: "Machine is created empty (zeroed, program counter at entry point)"). -/
def initialMachine : Machine :=
  { memory := List.replicate MEM_SIZE 0
    v := List.replicate 16 0
    i := 0
    pc := ENTRY_OFFSET
    stack := []
    delayTimer := 0
    soundTimer := 0
    vmem := List.replicate VMEM_SIZE false }

/-! ## Snapshot Codec

Modelled from the spec: serialize produces a deterministic, versioned
binary encoding of every Machine field; deserialize reconstructs the
Machine or fails if the blob is truncated, has a mismatched version tag,
or contains an out-of-range value such as an oversized stack depth. -/

def SNAPSHOT_VERSION : Nat := 1

/-- Big-endian 16-bit encoding of a value. -/
def enc16 (n : Nat) : List Nat := [n / 256, n % 256]

/-- Big-endian 16-bit decoding of a byte pair. -/
def dec16 (hi lo : Nat) : Nat := hi * 256 + lo

/-- Decode a flat byte list into 16-bit words, pairwise big-endian. -/
def decodeWords : List Nat → List Nat
  | hi :: lo :: rest => dec16 hi lo :: decodeWords rest
  | _ => []

/-- Modelled from the spec: the Snapshot Codec's encoder of cpu.rs is not in
the provided sources; per spec section 4.4 the snapshot is a deterministic,
versioned binary encoding of every Machine field — version tag, then each
field in a fixed order, the stack preceded by its depth. -/
def serialize (m : Machine) : List Nat :=
  [SNAPSHOT_VERSION] ++ m.memory ++ m.v ++ enc16 m.i ++ enc16 m.pc ++
  [m.stack.length] ++ (m.stack.map enc16).flatten ++
  [m.delayTimer, m.soundTimer] ++ m.vmem.map (fun b => if b then 1 else 0)

/-- Split off the first `n` bytes, failing on a truncated blob. -/
def takeE (n : Nat) (l : List Nat) : Except String (List Nat × List Nat) :=
  if n ≤ l.length then .ok (l.take n, l.drop n) else .error "snapshot truncated"

/-- Modelled from the spec: the Snapshot Codec's decoder of cpu.rs is not in
the provided sources; per spec section 4.4 it reconstructs an equivalent
Machine or fails with a descriptive error if the blob is truncated, has a
mismatched version tag, or contains an out-of-range stack depth. -/
def deserialize (bytes : List Nat) : Except String Machine := do
  let (ver, r0) ← takeE 1 bytes
  if ver = [SNAPSHOT_VERSION] then
    let (mem, r1) ← takeE MEM_SIZE r0
    let (regs, r2) ← takeE 16 r1
    let (iB, r3) ← takeE 2 r2
    let (pcB, r4) ← takeE 2 r3
    let (sdB, r5) ← takeE 1 r4
    let sd := sdB.headD 0
    if sd ≤ STACK_LIMIT then
      let (stB, r6) ← takeE (2 * sd) r5
      let (tB, r7) ← takeE 2 r6
      let (vmB, r8) ← takeE VMEM_SIZE r7
      if r8 = [] then
        .ok { memory := mem
              v := regs
              i := dec16 (iB.headD 0) ((iB.drop 1).headD 0)
              pc := dec16 (pcB.headD 0) ((pcB.drop 1).headD 0)
              stack := decodeWords stB
              delayTimer := tB.headD 0
              soundTimer := (tB.drop 1).headD 0
              vmem := vmB.map (fun b => b != 0) }
      else .error "snapshot has trailing bytes"
    else .error "snapshot stack depth out of range"
  else .error "snapshot version mismatch"

/-! ## Program loading (spec section 6) -/

/-- Modelled from the spec: CPU::load_rom is not in the provided sources
(Emulator::run only calls it); per the spec it installs a Program Image at
the architecture's fixed entry offset, resets all other state to initial
values, and fails if the bytes exceed available memory beyond the entry
offset. -/
def load_rom (bytes : List Nat) : Except String Machine :=
  if MEM_SIZE - ENTRY_OFFSET < bytes.length then .error "ROM too large"
  else .ok { initialMachine with
    memory := initialMachine.memory.take ENTRY_OFFSET ++ bytes ++
      List.replicate (MEM_SIZE - ENTRY_OFFSET - bytes.length) 0 }

/-! ## Emulator host state (emulator.rs)

The Emulator struct holds the cpu (a Machine), the 16 input-bit array and
the display; the sound backend and the SDL event pump have no VM-visible
state and are external collaborators, so the display is modelled by the
only piece of it handle_events touches, its fullscreen flag. -/

structure EmulatorState where
  cpu : Machine
  input : Fin 16 → Bool
  fullscreen : Bool

def FRAMES_PER_SEC : Nat := 60
def CYCLES_PER_FRAME : Nat := 10

/-- Emulator::run_state (emulator.rs lines 58-62): replaces the whole CPU
with the machine produced by CPU::from_state — modelled from the spec as
the Snapshot Codec's deserialize — or reports the error with its message
prefixed; the run loop then resumes on the new state. The result pairs the
returned value with the emulator state after the call. -/
def run_state (e : EmulatorState) (state : List Nat) :
    Except String Unit × EmulatorState :=
  match deserialize state with
  | .error msg => (.error ("error loading state: " ++ msg), e)
  | .ok m => (.ok (), { e with cpu := m })

/-- The SDL keycodes handle_events matches on. -/
inductive Keycode
  | kNum1 | kNum2 | kNum3 | kNum4
  | kQ | kW | kE | kR
  | kA | kS | kD | kF
  | kY | kX | kC | kV
  | kEscape | kF11 | kOther
  deriving DecidableEq

inductive Event
  | quitEvent
  | keyDown (k : Keycode)
  | keyUp (k : Keycode)
  | otherEvent
  deriving DecidableEq

/-- The CHIP-8 key index each keycode is mapped to by handle_events
(emulator.rs lines 100-131); keys without an arm map to nothing. -/
def chipKeyIndex : Keycode → Option (Fin 16)
  | .kNum1 => some 0
  | .kNum2 => some 1
  | .kNum3 => some 2
  | .kNum4 => some 3
  | .kQ => some 4
  | .kW => some 5
  | .kE => some 6
  | .kR => some 7
  | .kA => some 8
  | .kS => some 9
  | .kD => some 10
  | .kF => some 11
  | .kY => some 12
  | .kX => some 13
  | .kC => some 14
  | .kV => some 15
  | _ => none

/-- Emulator::handle_events (emulator.rs lines 92-136): drains the event
queue; returns true (quit) on a Quit event or an Escape key-down, toggles
fullscreen on F11 key-down, sets the input bit on key-down and clears it on
key-up for each mapped CHIP-8 key, and ignores everything else. -/
def handle_events (e : EmulatorState) : List Event → EmulatorState × Bool
  | [] => (e, false)
  | ev :: rest =>
    match ev with
    | .quitEvent => (e, true)
    | .keyDown .kEscape => (e, true)
    | .keyDown .kF11 => handle_events { e with fullscreen := !e.fullscreen } rest
    | .keyDown k =>
      match chipKeyIndex k with
      | some idx =>
        handle_events { e with input := Function.update e.input idx true } rest
      | none => handle_events e rest
    | .keyUp k =>
      match chipKeyIndex k with
      | some idx =>
        handle_events { e with input := Function.update e.input idx false } rest
      | none => handle_events e rest
    | .otherEvent => handle_events e rest

/-! ## The run loop's per-iteration trace (emulator.rs lines 64-83)

One iteration of run_loop polls the events; if handle_events requests exit
the loop breaks, otherwise the body runs the CPU for CYCLES_PER_FRAME
cycles — each cycle one cpu.tick with the current input followed by a
sound_active read that gates the beep — then calls update_timers once and
reads the display buffer (cpu.vmem) to render the frame. -/

inductive HostEvent
  | pollEvents
  | cpuTick (inp : Fin 16 → Bool)
  | soundActiveRead
  | timersUpdate
  | displayRead

/-- The observable calls of the loop body after handle_events returned
false, in source order (emulator.rs lines 72-79). -/
def frameBody (inp : Fin 16 → Bool) : List HostEvent :=
  (List.replicate CYCLES_PER_FRAME
    [HostEvent.cpuTick inp, HostEvent.soundActiveRead]).flatten ++
  [HostEvent.timersUpdate, HostEvent.displayRead]

/-- The observable calls of one full run_loop iteration on an emulator state
and the events pending in the queue. -/
def runLoopIter (e : EmulatorState) (events : List Event) : List HostEvent :=
  HostEvent.pollEvents ::
    (if (handle_events e events).2 then []
     else frameBody (handle_events e events).1.input)

def isTick : HostEvent → Bool
  | .cpuTick _ => true
  | _ => false

def isTimersUpdate : HostEvent → Bool
  | .timersUpdate => true
  | _ => false

def isSoundRead : HostEvent → Bool
  | .soundActiveRead => true
  | _ => false

def isDisplayRead : HostEvent → Bool
  | .displayRead => true
  | _ => false

/-- The prefix of a trace before the frame's update_timers call. -/
def beforeTimers (tr : List HostEvent) : List HostEvent :=
  tr.takeWhile (fun ev => !isTimersUpdate ev)

/-- The part of a trace strictly after the frame's update_timers call. -/
def afterTimers (tr : List HostEvent) : List HostEvent :=
  (tr.dropWhile (fun ev => !isTimersUpdate ev)).drop 1

/-- A concrete emulator state used to instantiate universally quantified
theorems: initial machine, all keys up, windowed. -/
def emu0 : EmulatorState :=
  { cpu := initialMachine, input := fun _ => false, fullscreen := false }

/-! ## Dialog handler (dialog_handler.rs)

The mpsc receiver is modelled by `Option (Option FileDialogResult)`:
`none` is "no channel", `some none` a channel whose one-shot message has
not arrived, `some (some r)` a channel holding the delivered result r. -/

inductive FileDialogResult
  | noneResult
  | openRom (path : List Char)
  | saveState (path : List Char)
  deriving DecidableEq

structure DialogHandler where
  is_open : Bool
  chan_rx : Option (Option FileDialogResult)
  deriving DecidableEq

/-- DialogHandler::new (dialog_handler.rs lines 35-40). -/
def DialogHandler.new : DialogHandler :=
  { is_open := false, chan_rx := none }

/-- DialogHandler::open_file_dialog (dialog_handler.rs lines 42-74): sets
is_open and installs a fresh, still-empty receiver; the spawned dialog
thread's later send is modelled by the deliver step of DialogReachable. -/
def DialogHandler.open_file_dialog (d : DialogHandler) : DialogHandler :=
  { d with is_open := true, chan_rx := some none }

/-- DialogHandler::check_result (dialog_handler.rs lines 76-88): if a
receiver is present and its message has arrived, return it and clear
is_open (the one-shot message is consumed); otherwise return None and leave
the state untouched. -/
def DialogHandler.check_result (d : DialogHandler) :
    FileDialogResult × DialogHandler :=
  match d.chan_rx with
  | some (some r) => (r, { d with is_open := false, chan_rx := some none })
  | _ => (FileDialogResult.noneResult, d)

/-- The save-state path transformation of dialog_handler.rs line 58: the
path the save dialog returned is kept as-is when it contains a dot,
otherwise ".p8s" is appended; the result is what the thread wraps in
FileDialogResult::SaveState. Paths are modelled as character lists. -/
def save_state_path (file_path : List Char) : List Char :=
  if file_path.contains '.' then file_path
  else file_path ++ ['.', 'p', '8', 's']

/-- DialogHandler states reachable from new() by any sequence of
open_file_dialog calls, message deliveries from a spawned dialog thread,
and check_result polls. -/
inductive DialogReachable : DialogHandler → Prop
  | init : DialogReachable DialogHandler.new
  | openDialog (d : DialogHandler) :
      DialogReachable d → DialogReachable d.open_file_dialog
  | deliver (d : DialogHandler) (r : FileDialogResult) :
      DialogReachable d → d.chan_rx = some none →
      DialogReachable { d with chan_rx := some (some r) }
  | poll (d : DialogHandler) :
      DialogReachable d → DialogReachable d.check_result.2

/-! ## Codec round-trip lemmas -/

theorem takeE_append (n : Nat) (l r : List Nat) (h : l.length = n) :
    takeE n (l ++ r) = .ok (l, r) := by
  subst h
  simp [takeE, List.take_left, List.drop_left]

theorem takeE_all (n : Nat) (l : List Nat) (h : l.length = n) :
    takeE n l = .ok (l, []) := by
  subst h
  simp [takeE]

theorem takeE_one_cons (x : Nat) (l : List Nat) :
    takeE 1 (x :: l) = .ok ([x], l) := by
  simp [takeE]

theorem takeE_two_cons (x y : Nat) (l : List Nat) :
    takeE 2 (x :: y :: l) = .ok ([x, y], l) := by
  simp [takeE, List.take_succ_cons, List.drop_succ_cons]

theorem except_ok_bind {ε α β : Type} (a : α) (f : α → Except ε β) :
    (Except.ok a : Except ε α) >>= f = f a := rfl

theorem enc16_length (n : Nat) : (enc16 n).length = 2 := rfl

theorem enc16_head (n : Nat) : (enc16 n).head?.getD 0 = n / 256 := rfl

theorem enc16_getElem_one (n : Nat) (h : 1 < (enc16 n).length) :
    (enc16 n)[1] = n % 256 := rfl

theorem dec16_div_mod (n : Nat) : dec16 (n / 256) (n % 256) = n := by
  simp [dec16]
  omega

theorem joined_enc16_length (l : List Nat) :
    ((l.map enc16).flatten).length = 2 * l.length := by
  induction l with
  | nil => simp
  | cons x xs ih => simp [enc16, ih]; omega

theorem decodeWords_joined (l : List Nat) :
    decodeWords ((l.map enc16).flatten) = l := by
  induction l with
  | nil => rfl
  | cons x xs ih =>
    have h2 : x / 256 * 256 + x % 256 = x := by omega
    simp [enc16, decodeWords, dec16, h2, ih]

theorem bits_map_id (b : Bool) : ((if b then (1 : Nat) else 0) != 0) = b := by
  cases b <;> rfl

/-- C3: for every reachable (well-formed) Machine state m, deserializing the
bytes produced by serializing m yields exactly m. -/
theorem C3_snapshot_roundtrip (m : Machine) (h : WellFormed m) :
    deserialize (serialize m) = .ok m := by
  obtain ⟨h1, h2, h3, h4, h5, h6, h7, h8, h9, h10, h11⟩ := h
  cases m with
  | mk memory v i pc stack delayTimer soundTimer vmem =>
  simp only at h1 h3 h7 h11
  simp only [serialize, deserialize]
  simp [takeE_append, takeE_all, takeE_one_cons, takeE_two_cons, enc16_length,
    h1, h3, h7, h11, except_ok_bind, enc16_head, enc16_getElem_one,
    dec16_div_mod, decodeWords_joined, bits_map_id]
  rw [takeE_append (2 * stack.length) ((List.map enc16 stack).flatten) _
    (joined_enc16_length stack)]
  simp [takeE_two_cons, takeE_all, h11, except_ok_bind, decodeWords_joined,
    bits_map_id]
  have hid : ((fun (b : Nat) => b != 0) ∘ fun (b : Bool) =>
      if b = true then (1 : Nat) else 0) = id := by
    funext b
    cases b <;> rfl
  rw [hid, List.map_id]

/-- Witness for C3: the round-trip theorem applied to the concrete initial
machine, whose well-formedness is checked directly. -/
theorem C3_snapshot_roundtrip_witness :
    WellFormed initialMachine ∧
      deserialize (serialize initialMachine) = .ok initialMachine := by
  have hwf : WellFormed initialMachine := by
    unfold WellFormed initialMachine MEM_SIZE ENTRY_OFFSET STACK_LIMIT VMEM_SIZE
    norm_num [List.mem_replicate]
  exact ⟨hwf, C3_snapshot_roundtrip initialMachine hwf⟩

/-! ## Run-loop theorems (emulator.rs lines 64-83) -/

/-- C1: in every iteration of the host run loop in which handle_events did
not request exit (i.e. every iteration that displays a frame), cpu.tick is
called exactly CYCLES_PER_FRAME = 10 times, each with the current input
state, all before the single update_timers call, and update_timers is
called exactly once. -/
theorem C1_ticks_then_timers (e : EmulatorState) (events : List Event)
    (h : (handle_events e events).2 = false) :
    (beforeTimers (runLoopIter e events)).filter isTick =
      List.replicate CYCLES_PER_FRAME
        (HostEvent.cpuTick (handle_events e events).1.input) ∧
    (afterTimers (runLoopIter e events)).filter isTick = [] ∧
    (runLoopIter e events).countP isTimersUpdate = 1 := by
  simp only [runLoopIter, h]
  exact ⟨rfl, rfl, rfl⟩

/-- Witness for C1: the iteration property evaluated on the concrete
emulator state with an empty event queue. -/
theorem C1_ticks_then_timers_witness :
    (beforeTimers (runLoopIter emu0 [])).filter isTick =
      List.replicate CYCLES_PER_FRAME
        (HostEvent.cpuTick (handle_events emu0 []).1.input) ∧
    (afterTimers (runLoopIter emu0 [])).filter isTick = [] ∧
    (runLoopIter emu0 []).countP isTimersUpdate = 1 :=
  C1_ticks_then_timers emu0 [] rfl

/-- C7 counterexample: the claim says all sound_active reads of a frame
occur after that frame's update_timers call, but in the concrete iteration
on emu0 with no pending events the prefix before update_timers already
contains sound_active reads (one per cycle, emulator.rs line 74). -/
theorem C7_reads_after_timers_counterexample :
    ¬ (beforeTimers (runLoopIter emu0 [])).countP isSoundRead = 0 := by
  decide

/-- C7 as amended: in every frame-displaying iteration the display buffer
is read exactly once, after update_timers, and sound_active is read
CYCLES_PER_FRAME times, all before update_timers (once per tick, gating the
beep), never after it. -/
theorem C7_read_ordering (e : EmulatorState) (events : List Event)
    (h : (handle_events e events).2 = false) :
    (beforeTimers (runLoopIter e events)).countP isDisplayRead = 0 ∧
    (afterTimers (runLoopIter e events)).countP isDisplayRead = 1 ∧
    (beforeTimers (runLoopIter e events)).countP isSoundRead =
      CYCLES_PER_FRAME ∧
    (afterTimers (runLoopIter e events)).countP isSoundRead = 0 := by
  simp only [runLoopIter, h]
  exact ⟨rfl, rfl, rfl, rfl⟩

/-- Witness for C7 as amended, on the concrete emulator state with an empty
event queue. -/
theorem C7_read_ordering_witness :
    (beforeTimers (runLoopIter emu0 [])).countP isDisplayRead = 0 ∧
    (afterTimers (runLoopIter emu0 [])).countP isDisplayRead = 1 ∧
    (beforeTimers (runLoopIter emu0 [])).countP isSoundRead =
      CYCLES_PER_FRAME ∧
    (afterTimers (runLoopIter emu0 [])).countP isSoundRead = 0 :=
  C7_read_ordering emu0 [] rfl

/-- C8: handle_events never modifies the VM's execution state: for every
event sequence, the cpu field (memory, registers, program counter, stack,
timers, display buffer) is identical before and after; only the input bits
and the window may change. -/
theorem C8_handle_events_preserves_cpu (e : EmulatorState)
    (events : List Event) :
    (handle_events e events).1.cpu = e.cpu := by
  induction events generalizing e with
  | nil => rfl
  | cons ev rest ih =>
    cases ev with
    | quitEvent => rfl
    | keyDown k => cases k <;> simp [handle_events, chipKeyIndex, ih]
    | keyUp k => cases k <;> simp [handle_events, chipKeyIndex, ih]
    | otherEvent => simpa [handle_events] using ih e

/-- C9: for every key mapped to index i, a key-down event sets input bit i
to true, the corresponding key-up event sets it to false, and both leave
every other bit unchanged. -/
theorem C9_key_events (e : EmulatorState) (k : Keycode) (idx : Fin 16)
    (h : chipKeyIndex k = some idx) :
    ((handle_events e [Event.keyDown k]).1.input idx = true ∧
     (handle_events e [Event.keyUp k]).1.input idx = false) ∧
    ∀ j : Fin 16, j ≠ idx →
      (handle_events e [Event.keyDown k]).1.input j = e.input j ∧
      (handle_events e [Event.keyUp k]).1.input j = e.input j := by
  cases k <;> simp_all [handle_events, chipKeyIndex]

/-- Witness for C9: key 1 (keycode Num1) at index 0, on the concrete
emulator state. -/
theorem C9_key_events_witness :
    (handle_events emu0 [Event.keyDown Keycode.kNum1]).1.input 0 = true :=
  (C9_key_events emu0 Keycode.kNum1 0 rfl).1.1

/-! ## State restore and program loading theorems -/

/-- C2: run_state returns Err exactly when CPU::from_state (the snapshot
decoder) returns Err; in the error case the emulator's CPU is left
completely unchanged (the whole emulator state is), and in the success case
the CPU is entirely replaced by the deserialized machine before execution
resumes. -/
theorem C2_run_state_atomic (e : EmulatorState) (state : List Nat) :
    ((∃ msg, deserialize state = .error msg) ↔
      ∃ msg, (run_state e state).1 = .error msg) ∧
    (∀ msg, deserialize state = .error msg → (run_state e state).2 = e) ∧
    (∀ m, deserialize state = .ok m →
      (run_state e state).2 = { e with cpu := m } ∧
      (run_state e state).1 = .ok ()) := by
  cases hd : deserialize state <;> simp [run_state, hd]

/-- Witness for C2: the empty byte slice fails to decode (truncated) and
leaves the concrete emulator state untouched. -/
theorem C2_run_state_atomic_witness : (run_state emu0 []).2 = emu0 :=
  (C2_run_state_atomic emu0 []).2.1 "snapshot truncated" rfl

/-- C4: load_rom fails when the image exceeds the available memory beyond
the entry offset; otherwise it installs the image at the entry offset and
resets every other part of the machine to its initial value. -/
theorem C4_load_rom_bounds (bytes : List Nat) :
    (MEM_SIZE - ENTRY_OFFSET < bytes.length →
      load_rom bytes = .error "ROM too large") ∧
    (bytes.length ≤ MEM_SIZE - ENTRY_OFFSET → ∃ m,
      load_rom bytes = .ok m ∧
      (m.memory.drop ENTRY_OFFSET).take bytes.length = bytes ∧
      m.memory.take ENTRY_OFFSET = initialMachine.memory.take ENTRY_OFFSET ∧
      m.memory.length = MEM_SIZE ∧
      m.v = initialMachine.v ∧ m.i = initialMachine.i ∧
      m.pc = initialMachine.pc ∧ m.stack = initialMachine.stack ∧
      m.delayTimer = initialMachine.delayTimer ∧
      m.soundTimer = initialMachine.soundTimer ∧
      m.vmem = initialMachine.vmem) := by
  have hmemlen : initialMachine.memory.length = MEM_SIZE := by
    simp [initialMachine]
  have hlen : (initialMachine.memory.take ENTRY_OFFSET).length =
      ENTRY_OFFSET := by
    rw [List.length_take, hmemlen]
    unfold MEM_SIZE ENTRY_OFFSET
    omega
  constructor
  · intro h
    simp [load_rom, h]
  · intro h
    refine ⟨{ initialMachine with
        memory := initialMachine.memory.take ENTRY_OFFSET ++ bytes ++
          List.replicate (MEM_SIZE - ENTRY_OFFSET - bytes.length) 0 },
      ?_, ?_, ?_, ?_, rfl, rfl, rfl, rfl, rfl, rfl, rfl⟩
    · unfold load_rom
      rw [if_neg (Nat.not_lt.mpr h)]
    · dsimp only
      rw [List.append_assoc, List.drop_left' hlen, List.take_left]
    · dsimp only
      rw [List.append_assoc, List.take_left' hlen]
    · dsimp only
      rw [List.length_append, List.length_append, hlen, List.length_replicate]
      unfold MEM_SIZE ENTRY_OFFSET at h ⊢
      omega

/-- Witness for C4: a three-byte image fits and is installed at the entry
offset. -/
theorem C4_load_rom_bounds_witness : ∃ m,
    load_rom [1, 2, 3] = .ok m ∧
    (m.memory.drop ENTRY_OFFSET).take (List.length [1, 2, 3]) = [1, 2, 3] ∧
    m.memory.take ENTRY_OFFSET = initialMachine.memory.take ENTRY_OFFSET ∧
    m.memory.length = MEM_SIZE ∧
    m.v = initialMachine.v ∧ m.i = initialMachine.i ∧
    m.pc = initialMachine.pc ∧ m.stack = initialMachine.stack ∧
    m.delayTimer = initialMachine.delayTimer ∧
    m.soundTimer = initialMachine.soundTimer ∧
    m.vmem = initialMachine.vmem :=
  (C4_load_rom_bounds [1, 2, 3]).2 (by norm_num [MEM_SIZE, ENTRY_OFFSET])

/-! ## Dialog handler theorems (dialog_handler.rs) -/

/-- C5 counterexample: a save path that already contains a dot is passed
through unchanged by the thread of open_file_dialog, so the SaveState value
for the chosen path "save.dat" does not end with ".p8s". -/
theorem C5_save_extension_counterexample :
    ¬ List.isSuffixOf ['.', 'p', '8', 's']
       (save_state_path ['s', 'a', 'v', 'e', '.', 'd', 'a', 't']) = true := by
  decide

/-- C5 as amended: the SaveState path is the dialog's path unchanged when
it already contains a dot; only when it contains no dot is ".p8s" appended,
and in that case the carried path does end with ".p8s". -/
theorem C5_save_extension (p : List Char) :
    (p.contains '.' = true → save_state_path p = p) ∧
    (p.contains '.' = false →
      save_state_path p = p ++ ['.', 'p', '8', 's'] ∧
      List.isSuffixOf ['.', 'p', '8', 's'] (save_state_path p) = true) := by
  constructor
  · intro h
    have hm : ('.' : Char) ∈ p := by simpa using h
    simp [save_state_path, hm]
  · intro h
    have hm : ('.' : Char) ∉ p := by simpa using h
    have he : save_state_path p = p ++ ['.', 'p', '8', 's'] := by
      simp [save_state_path, hm]
    refine ⟨he, ?_⟩
    rw [he]
    exact List.isSuffixOf_iff_suffix.mpr
      (List.suffix_append p ['.', 'p', '8', 's'])

/-- Witness for C5 as amended: a dotless path gets ".p8s" appended. -/
theorem C5_save_extension_witness :
    save_state_path ['r', 'o', 'm'] = ['r', 'o', 'm'] ++ ['.', 'p', '8', 's'] ∧
    List.isSuffixOf ['.', 'p', '8', 's'] (save_state_path ['r', 'o', 'm']) =
      true :=
  (C5_save_extension ['r', 'o', 'm']).2 rfl

/-- C6: check_result is a non-blocking poll: with no delivered result (no
channel, or a channel whose message has not arrived) it returns None and
leaves the state — in particular is_open — unchanged; with a delivered
result it returns it and clears is_open. -/
theorem C6_check_result_poll (d : DialogHandler) :
    ((d.chan_rx = none ∨ d.chan_rx = some none) →
      d.check_result = (FileDialogResult.noneResult, d)) ∧
    (∀ r, d.chan_rx = some (some r) →
      d.check_result.1 = r ∧ d.check_result.2.is_open = false) := by
  constructor
  · rintro (h | h) <;> simp [DialogHandler.check_result, h]
  · intro r h
    simp [DialogHandler.check_result, h]

/-- Witness for C6: a handler holding a delivered OpenRom result hands it
out and clears is_open. -/
theorem C6_check_result_poll_witness :
    (DialogHandler.check_result
      { is_open := true,
        chan_rx := some (some (FileDialogResult.openRom ['x'])) }).1 =
      FileDialogResult.openRom ['x'] ∧
    (DialogHandler.check_result
      { is_open := true,
        chan_rx := some (some (FileDialogResult.openRom ['x'])) }).2.is_open =
      false :=
  (C6_check_result_poll _).2 (FileDialogResult.openRom ['x']) rfl

/-- C10: in every DialogHandler state reachable from new() via
open_file_dialog, thread deliveries and check_result polls, is_open implies
a receiver channel is present. -/
theorem C10_pending_dialog_has_channel (d : DialogHandler)
    (hr : DialogReachable d) (ho : d.is_open = true) :
    d.chan_rx.isSome = true := by
  revert ho
  induction hr with
  | init => intro ho; simp [DialogHandler.new] at ho
  | openDialog d hd ih => intro ho; simp [DialogHandler.open_file_dialog]
  | deliver d r hd hc ih => intro ho; simp
  | poll d hd ih =>
    intro ho
    match hcr : d.chan_rx with
    | some (some r) => simp [DialogHandler.check_result, hcr]
    | some none =>
      simp only [DialogHandler.check_result, hcr] at ho ⊢
      exact hcr ▸ ih ho
    | none =>
      simp only [DialogHandler.check_result, hcr] at ho ⊢
      exact hcr ▸ ih ho

/-- Witness for C10: right after opening a dialog from the fresh handler,
is_open holds and a channel is present. -/
theorem C10_pending_dialog_has_channel_witness :
    (DialogHandler.new.open_file_dialog).chan_rx.isSome = true :=
  C10_pending_dialog_has_channel _
    (DialogReachable.openDialog _ DialogReachable.init) rfl

end Pich8
